import Mathlib

/-!
Verification of the double-entry accounting core of the financial_planning
repository (merge/commbank_tools.py and merge/financial_planning/*).

The Python code is shallowly embedded: Python floats are modelled as ℚ
(every amount appearing in the specification is an exact decimal),
datetimes as proleptic-Gregorian day numbers (ℤ), and the
datetime-or-original-string date field as ℤ ⊕ String.  Fallible code
(KeyError on an unregistered account) returns Option.  The fresh
uuid4 record ids and the datetime.now() sort fallback are modelled as
explicit oracle parameters (ids : ℕ → String, now : ℤ).
-/

/-- Python str.upper for a list of characters (ASCII data only). -/
def upper_chars (s : List Char) : List Char := s.map Char.toUpper

/-- Python substring test: needle in haystack. -/
def contains_sub : List Char → List Char → Bool
  | _, [] => true
  | [], _ :: _ => false
  | c :: cs, needle =>
    if needle.isPrefixOf (c :: cs) then true else contains_sub cs needle

/-- Python str.strip(ch): drop leading and trailing runs of a character. -/
def strip_char (ch : Char) (s : List Char) : List Char :=
  ((s.dropWhile (· = ch)).reverse.dropWhile (· = ch)).reverse

/-- Python str.split() with no arguments: split on whitespace runs, dropping empties. -/
def split_ws (s : List Char) : List (List Char) :=
  (s.splitOnP Char.isWhitespace).filter (· ≠ [])

/-- Python " ".join(parts). -/
def join_spaces : List (List Char) → List Char
  | [] => []
  | [p] => p
  | p :: q :: rest => p ++ ' ' :: join_spaces (q :: rest)

/-- Value of a list of decimal digit characters. -/
def digits_val : List Char → ℕ
  | [] => 0
  | ds => ds.foldl (fun acc c => 10 * acc + (c.toNat - '0'.toNat)) 0

/-- All characters are decimal digits (and the list is nonempty). -/
def all_digits (s : List Char) : Bool := s ≠ [] && s.all Char.isDigit

/-- Digits of an accepted Python float literal, before any rational is
built: sign, mantissa digits read as one integer, number of fraction digits,
exponent. -/
structure PyDecimal where
  negative : Bool
  mant : ℕ
  frac_len : ℕ
  exp : ℤ
deriving DecidableEq, Repr

/-- Mantissa of a Python float literal: digits, optionally with one decimal
point, at least one digit overall.  Returns the mantissa digits as an
integer, the fraction length, and the remaining characters. -/
def parse_mantissa (s : List Char) : Option (ℕ × ℕ × List Char) :=
  let intPart := s.takeWhile Char.isDigit
  let rest1 := s.drop intPart.length
  match rest1 with
  | '.' :: rest2 =>
    let fracPart := rest2.takeWhile Char.isDigit
    let rest3 := rest2.drop fracPart.length
    if intPart = [] ∧ fracPart = [] then none
    else some (digits_val (intPart ++ fracPart), fracPart.length, rest3)
  | _ =>
    if intPart = [] then none
    else some (digits_val intPart, 0, rest1)

/-- Optional exponent part of a Python float literal. -/
def parse_exponent (s : List Char) : Option (ℤ × List Char) :=
  match s with
  | 'e' :: rest | 'E' :: rest =>
    match rest with
    | '+' :: ds =>
      if all_digits (ds.takeWhile Char.isDigit) then
        some ((digits_val (ds.takeWhile Char.isDigit) : ℤ), ds.drop (ds.takeWhile Char.isDigit).length)
      else none
    | '-' :: ds =>
      if all_digits (ds.takeWhile Char.isDigit) then
        some (-(digits_val (ds.takeWhile Char.isDigit) : ℤ), ds.drop (ds.takeWhile Char.isDigit).length)
      else none
    | ds =>
      if all_digits (ds.takeWhile Char.isDigit) then
        some ((digits_val (ds.takeWhile Char.isDigit) : ℤ), ds.drop (ds.takeWhile Char.isDigit).length)
      else none
  | _ => some (0, s)

/-- Recognizer of a Python float literal: optional surrounding whitespace,
optional sign, decimal mantissa, optional exponent; the whole string must be
consumed.  (inf and nan, which have no rational value, and digit underscores
are not modelled; no input handled by the repository uses them.) -/
def parse_float_parts (s : List Char) : Option PyDecimal :=
  let t := (s.dropWhile Char.isWhitespace).reverse.dropWhile Char.isWhitespace |>.reverse
  let signed : Bool × List Char :=
    match t with
    | '+' :: rest => (false, rest)
    | '-' :: rest => (true, rest)
    | rest => (false, rest)
  match parse_mantissa signed.2 with
  | none => none
  | some (m, fl, rest1) =>
    match parse_exponent rest1 with
    | none => none
    | some (e, rest2) =>
      if rest2 = [] then some ⟨signed.1, m, fl, e⟩ else none

/-- Rational value of an accepted float literal. -/
def decimal_val (d : PyDecimal) : ℚ :=
  (if d.negative then -1 else 1) * ((d.mant : ℚ) / 10 ^ d.frac_len) * (10 : ℚ) ^ d.exp

/-- Model of the Python builtin float(s) over exact rationals. -/
def py_float_chars (s : List Char) : Option ℚ :=
  (parse_float_parts s).map decimal_val

/-- Python float(s) on a Lean string. -/
def py_float (s : String) : Option ℚ := py_float_chars s.toList

/-- Step 1 of TransactionProcessor.parse_amount: amount_str.replace(",", ""). -/
def strip_commas (s : List Char) : List Char := s.filter (· ≠ ',')

/-- Step 2 of parse_amount: if the string starts with ( and ends with ),
replace it by - followed by the inner part. -/
def paren_negate (s : List Char) : List Char :=
  if s.head? = some '(' ∧ s.getLast? = some ')' then
    '-' :: (s.drop 1).dropLast
  else s

/-- TransactionProcessor.parse_amount: strip commas, turn (x) into -x, strip
wrapping double quotes, then float(); on ValueError return 0. -/
def parse_amount (s : String) : ℚ :=
  let s1 := strip_commas s.toList
  let s2 := paren_negate s1
  let s3 := strip_char '"' s2
  match py_float_chars s3 with
  | some q => q
  | none => 0

/-- TransactionProcessor.clean_description: strip wrapping quotes and collapse
internal whitespace runs. -/
def clean_description (s : String) : String :=
  ⟨join_spaces (split_ws (strip_char '"' s.toList))⟩

/-- Gregorian leap year. -/
def is_leap (y : ℕ) : Bool := (y % 4 = 0 && y % 100 ≠ 0) || y % 400 = 0

/-- Days in a month of a given year. -/
def days_in_month (m y : ℕ) : ℕ :=
  if m = 2 then (if is_leap y then 29 else 28)
  else if m = 4 ∨ m = 6 ∨ m = 9 ∨ m = 11 then 30
  else 31

/-- Days in the months of a year strictly before month m. -/
def days_before_month : ℕ → ℕ → ℕ
  | _, 0 => 0
  | y, m + 1 => if m = 0 then 0 else days_in_month m y + days_before_month y m

/-- Proleptic Gregorian day number (rata die) of a calendar date. -/
def rata_die (d m y : ℕ) : ℤ :=
  (365 * (y - 1) + (y - 1) / 4 - (y - 1) / 100 + (y - 1) / 400
    + days_before_month y m + d : ℕ)

/-- datetime.strptime(s, "%d/%m/%Y") as a day number: day and month of one or
two digits, year of up to four digits, calendar-valid. -/
def parse_dmy (s : String) : Option ℤ :=
  match s.toList.splitOn '/' with
  | [g1, g2, g3] =>
    if all_digits g1 && g1.length ≤ 2 && all_digits g2 && g2.length ≤ 2
        && all_digits g3 && g3.length ≤ 4 then
      let d := digits_val g1
      let m := digits_val g2
      let y := digits_val g3
      if 1 ≤ m && m ≤ 12 && 1 ≤ d && d ≤ days_in_month m y && 1 ≤ y then
        some (rata_die d m y)
      else none
    else none
  | _ => none

/-- TransactionProcessor.parse_date: the parsed datetime, or the original
string unchanged when parsing fails. -/
def parse_date (s : String) : ℤ ⊕ String :=
  match parse_dmy s with
  | some d => Sum.inl d
  | none => Sum.inr s

/-- TransactionProcessor.categorize_transaction over an ordered
category-to-keyword-list table: first category with a keyword occurring
case-insensitively in the description wins, default uncategorized. -/
def categorize_transaction (categories : List (String × List String)) (description : String) : String :=
  let du := upper_chars description.toList
  match categories.find? (fun ck => ck.2.any (fun kw => contains_sub du (upper_chars kw.toList))) with
  | some ck => ck.1
  | none => "uncategorized"

/-- Fixed transfer markers of TransactionProcessor.is_transfer. -/
def transfer_keywords : List String :=
  ["TRANSFER TO", "TRANSFER FROM", "BPAY", "NETBANK", "COMMBANK APP"]

/-- TransactionProcessor.is_transfer: description contains some transfer marker. -/
def is_transfer (description : String) : Bool :=
  let du := upper_chars description.toList
  transfer_keywords.any (fun kw => contains_sub du (upper_chars kw.toList))

/-- Maximal run of digits at the head of the list. -/
def digit_run (s : List Char) : List Char := s.takeWhile Char.isDigit

/-- Attempt of the regex xx(\d+) at the current position. -/
def ref_at : List Char → Option (List Char)
  | 'x' :: 'x' :: c :: cs => if c.isDigit then some ('x' :: 'x' :: c :: digit_run cs) else none
  | _ => none

/-- Leftmost match of re.search(r"xx(\d+)", s): first position where the
pattern matches, with a maximal digit run. -/
def search_ref : List Char → Option (List Char)
  | [] => none
  | c :: cs =>
    match ref_at (c :: cs) with
    | some r => some r
    | none => search_ref cs

/-- TransactionProcessor.extract_account_reference: match_group(0) of the
masked-account pattern. -/
def extract_account_reference (description : String) : Option String :=
  (search_ref description.toList).map fun l => ⟨l⟩

/-- TransactionProcessor.find_account_by_reference: static reference table. -/
def find_account_by_reference (account_reference : String) : Option String :=
  if account_reference = "xx5784" then some "credit_card"
  else if account_reference = "xx9070" then some "debit"
  else if account_reference = "xx1893" then some "emergency_fund"
  else if account_reference = "xx1212" then some "old_credit_card"
  else if account_reference = "xx2467" then some "saver"
  else none

/-- Ledger account type. -/
inductive AccountType where
  | ASSET | LIABILITY | EXPENSE | INCOME | EQUITY
deriving DecidableEq, Repr

/-- Side of a journal entry. -/
inductive EntryType where
  | DEBIT | CREDIT
deriving DecidableEq, Repr

/-- Registry entry of one ledger account (name, type, optional external id and
api type), as in the accounts dictionaries of the sources. -/
structure AccountInfo where
  name : String
  type : AccountType
  id : Option String
  api_type : Option String
deriving DecidableEq, Repr

/-- The static account registry, keyed by account key in insertion order. -/
abbrev Accounts := List (String × AccountInfo)

/-- RawTransaction as built by the loaders: canonical fields of one raw row.
The mutable processed flag lives next to the record in the pool. -/
structure RawTx where
  account : String
  date : ℤ ⊕ String
  amount : ℚ
  description : String
  category : String
  is_transfer : Bool
  account_reference : Option String
deriving DecidableEq, Repr

/-- One double-entry journal entry. -/
structure Entry where
  account : String
  amount : ℚ
  type : EntryType
deriving DecidableEq, Repr

/-- One processed transaction (JournalRecord). -/
structure Journal where
  id : String
  date : ℤ ⊕ String
  description : String
  category : String
  entries : List Entry
deriving DecidableEq, Repr

/-- The raw-transaction pool with its per-record processed flags. -/
abbrev Pool := List (RawTx × Bool)

/-- The registry of the EnhancedDoubleEntryAccountingSystem constructor; the
five real-account external ids are uuid4 strings, taken here as parameters. -/
def commbank_accounts (cc de ef oc sa : String) : Accounts :=
  [("credit_card", ⟨"Credit Card", .LIABILITY, some cc, some "TRANSACTIONAL"⟩),
   ("debit", ⟨"Debit Account", .ASSET, some de, some "TRANSACTIONAL"⟩),
   ("emergency_fund", ⟨"Emergency Fund", .ASSET, some ef, some "SAVER"⟩),
   ("old_credit_card", ⟨"Old Credit Card", .LIABILITY, some oc, some "TRANSACTIONAL"⟩),
   ("saver", ⟨"Savings Account", .ASSET, some sa, some "SAVER"⟩),
   ("expense", ⟨"Expenses", .EXPENSE, none, none⟩),
   ("income", ⟨"Income", .INCOME, none, none⟩),
   ("transfer", ⟨"Internal Transfers", .EQUITY, none, none⟩)]

/-- The category-to-keyword table of the EnhancedDoubleEntryAccountingSystem
constructor, in insertion order. -/
def commbank_categories : List (String × List String) :=
  [("groceries", ["WOOLWORTHS", "COLES", "IGA", "ALDI", "SPUDSHED", "WA GROWERS", "COSTCO"]),
   ("dining", ["MCDONALDS", "SUBWAY", "HUNGRY JACKS", "NANDOS", "GUZMAN Y GOMEZ", "KFC",
      "ZAMBRERO", "BOOST JUICE", "MUFFIN BREAK", "CHICKEN TREAT", "CAFE",
      "RESTAURANT", "FOOD", "MUZZ BUZZ", "BASKIN", "BAKERY", "PIZZ"]),
   ("shopping", ["KMART", "TARGET", "MYER", "DAVID JONES", "BIG W", "BUNNINGS", "OFFICEWORKS",
      "JB HI-FI", "HARVEY NORMAN", "IKEA", "RED DOT", "PETBARN", "PET CIRCLE"]),
   ("transport", ["FUEL", "PETROL", "BP ", "CALTEX", "SHELL", "UBER", "TRANSPORT", "TAXI",
      "PARKING", "CAR", "AUTO", "DEPARTMENT OF TRANSPOR"]),
   ("utilities", ["ORIGIN ENERGY", "SYNERGY", "WATER CORPORATION", "INTERNET", "PHONE",
      "OPTUS", "TELSTRA", "VODAFONE", "NBN", "Aussie Broadband", "Superloop"]),
   ("health", ["CHEMIST", "PHARMACY", "DOCTOR", "MEDICAL", "DENTAL", "HEALTH", "HOSPITAL"]),
   ("entertainment", ["CINEMA", "MOVIE", "THEATRE", "NETFLIX", "SPOTIFY", "APPLE.COM", "GOOGLE PLAY",
      "AMAZON", "STEAM", "PATREON", "DISCORD", "APPLE MUSIC", "DISNEY+"]),
   ("fitness", ["GYM", "FITNESS", "SPORT", "SWIM", "GOLDSGYM"]),
   ("income", ["PAYMENT RECEIVED", "SALARY", "INCOME", "DIVIDEND", "INTEREST", "REFUND",
      "TAX RETURN", "CASH DEPOSIT", "DIRECT CREDIT"]),
   ("transfers", ["TRANSFER", "BPAY", "PAY ANYONE", "NETBANK"])]

/-- Body of the loader loops (load_credit_card and load_bank_account): parse
the three row fields, classify, and keep the row only when the amount is
nonzero. -/
def load_row (categories : List (String × List String)) (account_type : String)
    (date_str amount_str description_str : String) : Option RawTx :=
  let date := parse_date date_str
  let amount := parse_amount amount_str
  let description := clean_description description_str
  if amount ≠ 0 then
    some { account := account_type, date := date, amount := amount,
           description := description,
           category := categorize_transaction categories description,
           is_transfer := is_transfer description,
           account_reference := extract_account_reference description }
  else none

/-- Matching condition of find_matching_transfer, checked against one pool
record: different account, parseable date within two days either side
inclusive, equal absolute amount, and opposite sign convention. -/
def transfer_match (t : RawTx) (amount : ℚ) (d : ℤ) (o : RawTx) : Bool :=
  (o.account != t.account) &&
  (match o.date with
   | Sum.inl od => decide (d - 2 ≤ od) && decide (od ≤ d + 2)
   | Sum.inr _ => false) &&
  decide (|o.amount| = |amount|) &&
  (decide (o.amount < 0) == decide (t.amount > 0))

/-- Scan of the raw pool in stable order, skipping consumed records, carrying
the index of the record in the pool. -/
def find_matching_transfer_go (t : RawTx) (amount : ℚ) (d : ℤ) :
    ℕ → Pool → Option (ℕ × RawTx)
  | _, [] => none
  | i, (o, flag) :: rest =>
    if flag then find_matching_transfer_go t amount d (i + 1) rest
    else if transfer_match t amount d o then some (i, o)
    else find_matching_transfer_go t amount d (i + 1) rest

/-- TransactionProcessor.find_matching_transfer: None for an unparseable
date, else the first unconsumed qualifying record of the pool (the matched
record is returned with its pool index so the caller can mark it consumed). -/
def find_matching_transfer (t : RawTx) (amount : ℚ) (pool : Pool) : Option (ℕ × RawTx) :=
  match t.date with
  | Sum.inr _ => none
  | Sum.inl d => find_matching_transfer_go t amount d 0 pool

/-- TransactionProcessor._handle_transfer_debit: resolve the debit leg via the
account-reference table, defaulting to the transfer bucket. -/
def handle_transfer_debit (t : RawTx) : Entry :=
  match t.account_reference with
  | some ref =>
    match find_account_by_reference ref with
    | some dest => ⟨dest, |t.amount|, .DEBIT⟩
    | none => ⟨"transfer", |t.amount|, .DEBIT⟩
  | none => ⟨"transfer", |t.amount|, .DEBIT⟩

/-- Fallback of _handle_transfer_credit: account-reference resolution, then
the generic transfer bucket. -/
def transfer_credit_fallback (t : RawTx) : Entry :=
  match t.account_reference with
  | some ref =>
    match find_account_by_reference ref with
    | some src => ⟨src, t.amount, .CREDIT⟩
    | none => ⟨"transfer", t.amount, .CREDIT⟩
  | none => ⟨"transfer", t.amount, .CREDIT⟩

/-- TransactionProcessor._handle_transfer_credit: for a LIABILITY owner try
counterparty matching first (returning the matched pool index to be marked
consumed); otherwise, and on failure, fall back to reference resolution and
the transfer bucket.  None models the KeyError on an unregistered account. -/
def handle_transfer_credit (accounts : Accounts) (pool : Pool) (t : RawTx) :
    Option (Entry × Option ℕ) :=
  match accounts.lookup t.account with
  | none => none
  | some info =>
    if info.type = .LIABILITY then
      match find_matching_transfer t t.amount pool with
      | some (i, o) => some (⟨o.account, t.amount, .CREDIT⟩, some i)
      | none => some (transfer_credit_fallback t, none)
    else some (transfer_credit_fallback t, none)

/-- TransactionProcessor._process_liability_transaction: entry assembly for a
LIABILITY owner, together with the pool index consumed by matching, if any. -/
def process_liability_transaction (accounts : Accounts) (pool : Pool) (t : RawTx) :
    Option (List Entry × Option ℕ) :=
  if t.amount < 0 then
    some ([⟨"expense", |t.amount|, .DEBIT⟩, ⟨t.account, |t.amount|, .CREDIT⟩], none)
  else
    if t.is_transfer then
      (handle_transfer_credit accounts pool t).map fun em =>
        ([⟨t.account, t.amount, .DEBIT⟩, em.1], em.2)
    else
      some ([⟨t.account, t.amount, .DEBIT⟩, ⟨"transfer", t.amount, .CREDIT⟩], none)

/-- TransactionProcessor._process_asset_transaction: entry assembly for an
ASSET owner. -/
def process_asset_transaction (accounts : Accounts) (pool : Pool) (t : RawTx) :
    Option (List Entry × Option ℕ) :=
  if t.amount < 0 then
    if t.is_transfer then
      some ([handle_transfer_debit t, ⟨t.account, |t.amount|, .CREDIT⟩], none)
    else
      some ([⟨"expense", |t.amount|, .DEBIT⟩, ⟨t.account, |t.amount|, .CREDIT⟩], none)
  else
    if t.is_transfer then
      (handle_transfer_credit accounts pool t).map fun em =>
        ([⟨t.account, t.amount, .DEBIT⟩, em.1], em.2)
    else
      some ([⟨t.account, t.amount, .DEBIT⟩, ⟨"income", t.amount, .CREDIT⟩], none)

/-- Sum of the DEBIT entry amounts of an entry list. -/
def total_debits (es : List Entry) : ℚ :=
  ((es.filter (fun e => e.type = .DEBIT)).map Entry.amount).sum

/-- Sum of the CREDIT entry amounts of an entry list. -/
def total_credits (es : List Entry) : ℚ :=
  ((es.filter (fun e => e.type = .CREDIT)).map Entry.amount).sum

/-- Condition of the unbalanced-record diagnostic printed by
_create_processed_transaction. -/
def unbalanced_warning (es : List Entry) : Bool :=
  decide (1 / 100 < |total_debits es - total_credits es|)

/-- Entry assembly of _create_processed_transaction: dispatch on the owning
account type; a registered account of any other type yields the empty entry
list, an unregistered one the KeyError. -/
def create_body (accounts : Accounts) (pool : Pool) (t : RawTx) :
    Option (List Entry × Option ℕ) :=
  match accounts.lookup t.account with
  | none => none
  | some info =>
    if info.type = .LIABILITY then process_liability_transaction accounts pool t
    else if info.type = .ASSET then process_asset_transaction accounts pool t
    else some ([], none)

/-- TransactionProcessor._create_processed_transaction: the fresh record (its
id drawn from the uuid oracle), the pool index consumed by matching, and
whether the unbalanced diagnostic fired. -/
def create_processed_transaction (accounts : Accounts) (pool : Pool) (t : RawTx)
    (id : String) : Option (Journal × Option ℕ × Bool) :=
  (create_body accounts pool t).map fun em =>
    ({ id := id, date := t.date, description := t.description,
       category := t.category, entries := em.1 },
     em.2, unbalanced_warning em.1)

/-- Sort key of the Python sorted calls: the parsed date, with datetime.now()
(the now parameter) substituted for an unparseable one. -/
def sort_key (now : ℤ) (date : ℤ ⊕ String) : ℤ :=
  match date with
  | Sum.inl d => d
  | Sum.inr _ => now

/-- Stable insertion of an indexed key into a sorted run: an element inserted
from the left goes before equal keys, as in Python stable sorted. -/
def insert_stable (p : ℕ × ℤ) : List (ℕ × ℤ) → List (ℕ × ℤ)
  | [] => [p]
  | q :: rest => if q.2 < p.2 then q :: insert_stable p rest else p :: q :: rest

/-- Stable insertion sort of indexed keys. -/
def isort_stable : List (ℕ × ℤ) → List (ℕ × ℤ)
  | [] => []
  | p :: rest => insert_stable p (isort_stable rest)

/-- Indices of the pool in the stable date order used by
process_raw_transactions. -/
def sorted_indices (keys : List ℤ) : List ℕ :=
  (isort_stable keys.enum).map Prod.fst

/-- Mark the pool record at an index as processed. -/
def set_flag : Pool → ℕ → Pool
  | [], _ => []
  | (t, _) :: rest, 0 => (t, true) :: rest
  | p :: rest, n + 1 => p :: set_flag rest n

/-- Loop body of process_raw_transactions over the date-sorted index list:
skip already processed records, journal the rest, mark the record (and any
matched counterparty) processed, and append the record with its diagnostic
flag.  The id counter indexes the uuid oracle. -/
def process_go (accounts : Accounts) (ids : ℕ → String) :
    List ℕ → Pool → List (Journal × Bool) → ℕ →
    Option (Pool × List (Journal × Bool) × ℕ)
  | [], pool, recs, k => some (pool, recs, k)
  | i :: rest, pool, recs, k =>
    match pool.get? i with
    | none => process_go accounts ids rest pool recs k
    | some (_, true) => process_go accounts ids rest pool recs k
    | some (t, false) =>
      match create_processed_transaction accounts pool t (ids k) with
      | none => none
      | some (r, m, w) =>
        let pool1 := set_flag pool i
        let pool2 := match m with | some j => set_flag pool1 j | none => pool1
        process_go accounts ids rest pool2 (recs ++ [(r, w)]) (k + 1)

/-- TransactionProcessor.process_raw_transactions: journal the raw pool in
ascending date order (unparseable dates keyed by the clock oracle), each
emitted record paired with its unbalanced-diagnostic flag. -/
def process_raw_transactions (accounts : Accounts) (ids : ℕ → String) (now : ℤ)
    (raw : List RawTx) : Option (List (Journal × Bool)) :=
  let order := sorted_indices (raw.map fun t => sort_key now t.date)
  (process_go accounts ids order (raw.map fun t => (t, false)) [] 0).map
    fun res => res.2.1

/-- The processed_transactions list that flows downstream to the balance
ledger: the emitted records, none rejected. -/
def processed_transactions (accounts : Accounts) (ids : ℕ → String) (now : ℤ)
    (raw : List RawTx) : Option (List Journal) :=
  (process_raw_transactions accounts ids now raw).map fun recs => recs.map Prod.fst

/-- Running balances of the ledger, keyed like the registry. -/
abbrev Balances := List (String × ℚ)

/-- Zero balance for every registered account. -/
def init_balances (accounts : Accounts) : Balances :=
  accounts.map fun p => (p.1, 0)

/-- Current balance of an account. -/
def get_bal (bal : Balances) (account : String) : ℚ :=
  (bal.lookup account).getD 0

/-- Overwrite the balance of an account (first occurrence of its key). -/
def set_bal : Balances → String → ℚ → Balances
  | [], _, _ => []
  | (k, v) :: rest, key, val =>
    if k = key then (k, val) :: rest else (k, v) :: set_bal rest key val

/-- Signed balance delta of one entry: DEBIT increases ASSET and EXPENSE and
decreases LIABILITY, EQUITY and INCOME; CREDIT is the mirror. -/
def entry_delta (ty : AccountType) (e : Entry) : ℚ :=
  match e.type with
  | .DEBIT => if ty = .ASSET ∨ ty = .EXPENSE then e.amount else -e.amount
  | .CREDIT => if ty = .ASSET ∨ ty = .EXPENSE then -e.amount else e.amount

/-- Balance update of one entry in update_account_balances: entries on
unregistered accounts leave the balances untouched. -/
def apply_entry (accounts : Accounts) (bal : Balances) (e : Entry) : Balances :=
  match accounts.lookup e.account with
  | none => bal
  | some info => set_bal bal e.account (get_bal bal e.account + entry_delta info.type e)

/-- Unified entry: the journal entry enriched with the account display name. -/
structure UEntry where
  account : String
  account_name : String
  amount : ℚ
  type : EntryType
deriving DecidableEq, Repr

/-- Unified transaction: the record plus the balances snapshot taken right
after its entries were applied.  The date is kept as the parsed value; its
string formatting in the source is not load-bearing for any claim. -/
structure Unified where
  id : String
  date : ℤ ⊕ String
  description : String
  category : String
  entries : List UEntry
  balances : Balances
deriving DecidableEq, Repr

/-- Display name attached to a unified entry ("Unknown" when unregistered). -/
def entry_account_name (accounts : Accounts) (account : String) : String :=
  match accounts.lookup account with
  | some info => info.name
  | none => "Unknown"

/-- Apply the entries of one record in order, threading the balances. -/
def apply_entries (accounts : Accounts) : Balances → List Entry → Balances
  | bal, [] => bal
  | bal, e :: rest => apply_entries accounts (apply_entry accounts bal e) rest

/-- Process one record in update_account_balances: updated balances and the
unified transaction carrying a value copy of the running balances. -/
def unify_record (accounts : Accounts) (bal : Balances) (r : Journal) :
    Balances × Unified :=
  let bal1 := apply_entries accounts bal r.entries
  (bal1,
   { id := r.id, date := r.date, description := r.description,
     category := r.category,
     entries := r.entries.map fun e =>
       ⟨e.account, entry_account_name accounts e.account, e.amount, e.type⟩,
     balances := bal1 })

/-- Fold of update_account_balances over the date-sorted records. -/
def unify_go (accounts : Accounts) : Balances → List Journal → List Unified → Balances × List Unified
  | bal, [], acc => (bal, acc)
  | bal, r :: rest, acc =>
    let step := unify_record accounts bal r
    unify_go accounts step.1 rest (acc ++ [step.2])

/-- TransactionProcessor.update_account_balances: reset every registered
balance to zero, replay the processed records in ascending date order, and
collect the unified transactions with their snapshots. -/
def update_account_balances (accounts : Accounts) (now : ℤ)
    (processed : List Journal) : Balances × List Unified :=
  let order := sorted_indices (processed.map fun r => sort_key now r.date)
  let sorted := order.filterMap fun i => processed.get? i
  unify_go accounts (init_balances accounts) sorted []

/-- Total of the balances of the registered ASSET and EXPENSE accounts, as
summed by verify_double_entry_accounting. -/
def debit_side_total (accounts : Accounts) (bal : Balances) : ℚ :=
  ((bal.filter fun p =>
      match accounts.lookup p.1 with
      | some info => info.type = .ASSET || info.type = .EXPENSE
      | none => false).map Prod.snd).sum

/-- Total of the balances of the registered LIABILITY, EQUITY and INCOME
accounts. -/
def credit_side_total (accounts : Accounts) (bal : Balances) : ℚ :=
  ((bal.filter fun p =>
      match accounts.lookup p.1 with
      | some info => info.type = .LIABILITY || info.type = .EQUITY || info.type = .INCOME
      | none => false).map Prod.snd).sum

/-- EnhancedDoubleEntryAccountingSystem.verify_double_entry_accounting: the
two side totals agree within 0.01. -/
def verify_double_entry_accounting (accounts : Accounts) (bal : Balances) : Bool :=
  decide (|debit_side_total accounts bal - credit_side_total accounts bal| < 1 / 100)

/-- Full mutable state of the processor, as touched by its methods. -/
structure ProcessorState where
  accounts : Accounts
  categories : List (String × List String)
  raw_transactions : Pool
  processed_transactions : List Journal
  unified_transactions : List Unified
  account_balances : Balances

/-- The verify method as a state transformer: it returns the check result and
leaves every state component untouched. -/
def verify_method (s : ProcessorState) : Bool × ProcessorState :=
  (verify_double_entry_accounting s.accounts s.account_balances, s)

/-- Real (externally identified) account keys hardcoded by the exporter. -/
def real_account_keys : List String :=
  ["credit_card", "debit", "emergency_fund", "saver", "old_credit_card"]

/-- Projection of one exported transaction: the fields the claims are about.
The fixed strings (status SETTLED, currency AUD, ownership INDIVIDUAL) and
the timestamp formatting are constants in the source and not modelled. -/
structure UpTx where
  id : String
  description : String
  category : String
  amount_abs : ℚ
  value_in_base_units : ℤ
  account_id : Option String
  api_type : Option String
  transferAccount : Option (Option String)
deriving DecidableEq, Repr

/-- Signed primary-leg amount of the exporter: ASSET DEBIT positive, CREDIT
negative; LIABILITY (and any other type) the mirror. -/
def export_amount (ty : AccountType) (e : UEntry) : ℚ :=
  if ty = .ASSET then (if e.type = .DEBIT then e.amount else -e.amount)
  else (if e.type = .DEBIT then -e.amount else e.amount)

/-- Loop body of Exporter.prepare_transactions_for_up_bank for one unified
transaction: None models the continue (no entry touching a real account) and
the KeyError on an unregistered primary account.  The transferAccount link is
added only when some entry touches the transfer bucket and another real
account entry besides the primary leg exists. -/
def prepare_transaction_for_up_bank (accounts : Accounts) (tx : Unified) : Option UpTx :=
  match tx.entries.find? (fun e => decide (e.account ∈ real_account_keys)) with
  | none => none
  | some src =>
    match accounts.lookup src.account with
    | none => none
    | some info =>
      let amount := export_amount info.type src
      let ta : Option (Option String) :=
        if tx.entries.any (fun e => e.account == "transfer") then
          match (tx.entries.filter fun e =>
              decide (e.account ∈ real_account_keys) && e.account != src.account).head? with
          | some e2 => some ((accounts.lookup e2.account).bind AccountInfo.id)
          | none => none
        else none
      some { id := tx.id, description := tx.description, category := tx.category,
             amount_abs := |amount|, value_in_base_units := ⌊|amount| * 100⌋,
             account_id := info.id, api_type := info.api_type,
             transferAccount := ta }

/-- Exporter.prepare_transactions_for_up_bank over the unified list. -/
def prepare_transactions_for_up_bank (accounts : Accounts) (txs : List Unified) : List UpTx :=
  txs.filterMap (prepare_transaction_for_up_bank accounts)

/-- Concrete registry instance used by the scenario theorems; the uuid4
external ids are opaque, so fixed tokens stand in for them. -/
def cb_accounts : Accounts :=
  commbank_accounts "id-cc" "id-debit" "id-ef" "id-occ" "id-saver"

theorem lookup_set_bal_self (bal : Balances) (k : String) (v : ℚ)
    (h : (bal.lookup k).isSome) : (set_bal bal k v).lookup k = some v := by
  induction bal with
  | nil => simp [List.lookup] at h
  | cons p rest ih =>
    obtain ⟨k0, v0⟩ := p
    by_cases hk : k0 = k
    · subst hk
      simp [set_bal, List.lookup]
    · have hk2 : (k == k0) = false := by
        simp [beq_iff_eq]
        exact fun hc => hk hc.symm
      simp only [set_bal, if_neg hk, List.lookup, hk2, cond_false]
      apply ih
      simpa [List.lookup, hk2] using h

theorem get_bal_set_bal_self (bal : Balances) (k : String) (v : ℚ)
    (h : (bal.lookup k).isSome) : get_bal (set_bal bal k v) k = v := by
  simp [get_bal, lookup_set_bal_self bal k v h]

/-- C1: the Verifier returns true exactly when the ASSET+EXPENSE balance total
and the LIABILITY+EQUITY+INCOME balance total differ in absolute value by
strictly less than 0.01, and it leaves the whole processor state (the balances
map included) unchanged. -/
theorem verify_pure_iff_balanced (s : ProcessorState) :
    (verify_method s).2 = s ∧
    ((verify_method s).1 = true ↔
      |debit_side_total s.accounts s.account_balances -
        credit_side_total s.accounts s.account_balances| < 1 / 100) := by
  refine ⟨rfl, ?_⟩
  simp [verify_method, verify_double_entry_accounting]

/-- C6: during balance replay, an entry on a registered account present in the
balances map changes exactly that balance: a DEBIT adds the amount for ASSET
and EXPENSE accounts and subtracts it for LIABILITY, EQUITY and INCOME
accounts, and a CREDIT does the exact opposite. -/
theorem apply_entry_sign_convention (accounts : Accounts) (bal : Balances)
    (e : Entry) (info : AccountInfo)
    (h1 : accounts.lookup e.account = some info)
    (h2 : (bal.lookup e.account).isSome) :
    (e.type = .DEBIT →
      ((info.type = .ASSET ∨ info.type = .EXPENSE) →
        get_bal (apply_entry accounts bal e) e.account = get_bal bal e.account + e.amount) ∧
      ((info.type = .LIABILITY ∨ info.type = .EQUITY ∨ info.type = .INCOME) →
        get_bal (apply_entry accounts bal e) e.account = get_bal bal e.account - e.amount)) ∧
    (e.type = .CREDIT →
      ((info.type = .ASSET ∨ info.type = .EXPENSE) →
        get_bal (apply_entry accounts bal e) e.account = get_bal bal e.account - e.amount) ∧
      ((info.type = .LIABILITY ∨ info.type = .EQUITY ∨ info.type = .INCOME) →
        get_bal (apply_entry accounts bal e) e.account = get_bal bal e.account + e.amount)) := by
  have hget : get_bal (apply_entry accounts bal e) e.account =
      get_bal bal e.account + entry_delta info.type e := by
    simp only [apply_entry, h1]
    exact get_bal_set_bal_self bal e.account _ h2
  constructor
  · intro hty
    constructor
    · intro hae
      rw [hget, entry_delta, hty]
      rcases hae with h | h <;> simp [h]
    · intro hlei
      rw [hget, entry_delta, hty]
      rcases hlei with h | h | h <;> simp [h, sub_eq_add_neg]
  · intro hty
    constructor
    · intro hae
      rw [hget, entry_delta, hty]
      rcases hae with h | h <;> simp [h, sub_eq_add_neg]
    · intro hlei
      rw [hget, entry_delta, hty]
      rcases hlei with h | h | h <;> simp [h]

/-- Witness for C6 at a concrete input: a CREDIT of 45 on the registered
LIABILITY account credit_card adds 45 to its zero running balance. -/
theorem apply_entry_sign_convention_witness :
    get_bal (apply_entry cb_accounts (init_balances cb_accounts) ⟨"credit_card", 45, .CREDIT⟩)
        "credit_card" =
      get_bal (init_balances cb_accounts) "credit_card" + 45 :=
  ((apply_entry_sign_convention cb_accounts (init_balances cb_accounts)
      ⟨"credit_card", 45, .CREDIT⟩ ⟨"Credit Card", .LIABILITY, some "id-cc", some "TRANSACTIONAL"⟩
      (by decide) (by decide)).2 rfl).2 (Or.inl rfl)

/-- C10: the three pinned amount-parsing equalities, and in general the result
is the parsed float value of the comma-stripped, parenthesis-negated,
quote-stripped text, with 0 for every string that text does not make numeric. -/
theorem parse_amount_spec :
    parse_amount "(123.45)" = -123.45 ∧
    parse_amount "1,234.50" = 1234.50 ∧
    parse_amount "garbage" = 0 ∧
    (∀ s, py_float_chars (strip_char '"' (paren_negate (strip_commas s.toList))) = none →
      parse_amount s = 0) ∧
    (∀ s q, py_float_chars (strip_char '"' (paren_negate (strip_commas s.toList))) = some q →
      parse_amount s = q) := by
  refine ⟨?_, ?_, ?_, ?_, ?_⟩
  · have h : parse_float_parts (strip_char '"' (paren_negate (strip_commas "(123.45)".toList))) =
        some ⟨true, 12345, 2, 0⟩ := by decide
    simp only [parse_amount, py_float_chars, h, Option.map_some]
    norm_num [decimal_val]
  · have h : parse_float_parts (strip_char '"' (paren_negate (strip_commas "1,234.50".toList))) =
        some ⟨false, 123450, 2, 0⟩ := by decide
    simp only [parse_amount, py_float_chars, h, Option.map_some]
    norm_num [decimal_val]
  · have h : parse_float_parts (strip_char '"' (paren_negate (strip_commas "garbage".toList))) =
        none := by decide
    simp only [parse_amount, py_float_chars, h]
    rfl
  · intro s h
    simp only [parse_amount, h]
  · intro s q h
    simp only [parse_amount, h]

/-- Witness for C10 at a concrete input: the all-letter string parses to no
float and the amount parser therefore returns 0. -/
theorem parse_amount_spec_witness : parse_amount "garbage" = 0 :=
  parse_amount_spec.2.2.2.1 "garbage" (by decide)

/-- Matching condition exactly as the claim words it: the absolute amounts
need only agree within a 0.01 tolerance. -/
def transfer_match_claim (t : RawTx) (amount : ℚ) (d : ℤ) (o : RawTx) : Bool :=
  (o.account != t.account) &&
  (match o.date with
   | Sum.inl od => decide (d - 2 ≤ od) && decide (od ≤ d + 2)
   | Sum.inr _ => false) &&
  decide (|(|o.amount| - |amount|)| ≤ 1 / 100) &&
  (decide (o.amount < 0) == decide (t.amount > 0))

/-- Counterparty matching as the claim describes it: the first unconsumed
record of the pool satisfying the claim condition, tolerance included. -/
def find_matching_transfer_claim (t : RawTx) (amount : ℚ) (pool : Pool) :
    Option (ℕ × RawTx) :=
  match t.date with
  | Sum.inr _ => none
  | Sum.inl d =>
    (pool.enum.find? fun ip => !ip.2.2 && transfer_match_claim t amount d ip.2.1).map
      fun ip => (ip.1, ip.2.1)

/-- Transaction of the C2 counterexample. -/
def c2_t : RawTx := ⟨"credit_card", Sum.inl 0, 100, "", "", true, none⟩

/-- Pool record of the C2 counterexample: within the tolerance but not of
exactly equal absolute amount. -/
def c2_o : RawTx := ⟨"saver", Sum.inl 0, -100.005, "", "", true, none⟩

/-- C2 counterexample: a candidate whose absolute amount differs from the
transaction amount by 0.005 (inside the claimed 0.01 tolerance) is matched by
the claimed rule but rejected by the code, which compares absolute amounts
for exact equality. -/
theorem find_matching_transfer_tolerance_counterexample :
    find_matching_transfer c2_t 100 [(c2_o, false)] = none ∧
    find_matching_transfer_claim c2_t 100 [(c2_o, false)] = some (0, c2_o) := by
  have habs_o : |c2_o.amount| = 100.005 := by
    have h0 : c2_o.amount = -100.005 := rfl
    rw [h0, abs_neg, abs_of_nonneg]
    norm_num
  have habs_t : |(100 : ℚ)| = 100 := abs_of_nonneg (by norm_num)
  have ht : c2_t.date = Sum.inl 0 := rfl
  constructor
  · have hamt : (decide (|c2_o.amount| = |(100 : ℚ)|)) = false := by
      rw [decide_eq_false_iff_not, habs_o, habs_t]
      norm_num
    have hcond : transfer_match c2_t 100 0 c2_o = false := by
      simp only [transfer_match, hamt, Bool.and_false, Bool.false_and]
    simp only [find_matching_transfer, ht, find_matching_transfer_go, hcond,
      Bool.false_eq_true, if_false]
  · have h1 : (c2_o.account != c2_t.account) = true := by decide
    have h2 : (match c2_o.date with
        | Sum.inl od => decide ((0 : ℤ) - 2 ≤ od) && decide (od ≤ (0 : ℤ) + 2)
        | Sum.inr _ => false) = true := by decide
    have h3 : (decide (|(|c2_o.amount| - |(100 : ℚ)|)| ≤ 1 / 100)) = true := by
      rw [decide_eq_true_eq, habs_o, habs_t]
      rw [abs_of_nonneg]
      · norm_num
      · norm_num
    have h4 : (decide (c2_o.amount < 0) == decide (c2_t.amount > 0)) = true := by
      have ha : (decide (c2_o.amount < 0)) = true := by
        rw [decide_eq_true_eq]
        have h0 : c2_o.amount = -100.005 := rfl
        rw [h0]
        norm_num
      have hb : (decide (c2_t.amount > 0)) = true := by
        rw [decide_eq_true_eq]
        have h0 : c2_t.amount = 100 := rfl
        rw [h0]
        norm_num
      rw [ha, hb]
      rfl
    have hcond : transfer_match_claim c2_t 100 0 c2_o = true := by
      simp only [transfer_match_claim, h1, h2, h3, h4, Bool.and_true, Bool.true_and]
    have henum : ([(c2_o, false)] : Pool).enum = [(0, (c2_o, false))] := rfl
    simp only [find_matching_transfer_claim, ht, henum]
    rw [List.find?_cons_of_pos]
    · rfl
    · simp only [Bool.not_false, Bool.true_and, hcond]

theorem find_matching_go_enumFrom (t : RawTx) (amount : ℚ) (d : ℤ) :
    ∀ (pool : Pool) (i : ℕ),
      find_matching_transfer_go t amount d i pool =
        ((pool.enumFrom i).find? fun ip => !ip.2.2 && transfer_match t amount d ip.2.1).map
          (fun ip => (ip.1, ip.2.1)) := by
  intro pool
  induction pool with
  | nil => intro i; rfl
  | cons p rest ih =>
    intro i
    obtain ⟨o, flag⟩ := p
    cases flag with
    | true =>
      simp [find_matching_transfer_go, List.enumFrom, List.find?, ih]
    | false =>
      by_cases hm : transfer_match t amount d o
      · simp [find_matching_transfer_go, hm, List.enumFrom, List.find?]
      · simp [find_matching_transfer_go, hm, List.enumFrom, List.find?, ih]

/-- C2 amended: for a transaction with a parseable date, counterparty
matching returns exactly the first unconsumed pool record, in stable pool
order, with a different account, a parseable date within two days either way
inclusive, an exactly equal absolute amount, and the opposite sign
convention; it returns none when no such record exists. -/
theorem find_matching_transfer_first_match (t : RawTx) (amount : ℚ) (d : ℤ)
    (h : t.date = Sum.inl d) (pool : Pool) :
    find_matching_transfer t amount pool =
      (pool.enum.find? fun ip => !ip.2.2 && transfer_match t amount d ip.2.1).map
        (fun ip => (ip.1, ip.2.1)) := by
  simp only [find_matching_transfer, h]
  exact find_matching_go_enumFrom t amount d pool 0

/-- Pool of the C2 witness: one exactly matching candidate. -/
def c2_w_pool : Pool := [(⟨"saver", Sum.inl 1, -100, "", "", true, none⟩, false)]

/-- Witness for C2 at a concrete input: a pool with one exactly matching
candidate, found by both the code and the first-match characterization. -/
theorem find_matching_transfer_first_match_witness :
    find_matching_transfer c2_t 100 c2_w_pool =
      (c2_w_pool.enum.find? fun ip => !ip.2.2 && transfer_match c2_t 100 0 ip.2.1).map
        (fun ip => (ip.1, ip.2.1)) :=
  find_matching_transfer_first_match c2_t 100 0 rfl c2_w_pool

/-- Raw row A of the transfer-matching scenario: saver (ASSET), 2024-03-01,
-200.00, transfer, reference xx5784. -/
def c3_rowA : RawTx :=
  { account := "saver", date := parse_date "01/03/2024", amount := -200,
    description := "TRANSFER TO xx5784", category := "transfers",
    is_transfer := true, account_reference := some "xx5784" }

/-- Raw row B of the transfer-matching scenario: credit_card (LIABILITY),
2024-03-02, +200.00, transfer, no reference. -/
def c3_rowB : RawTx :=
  { account := "credit_card", date := parse_date "02/03/2024", amount := 200,
    description := "TRANSFER FROM SAVINGS", category := "transfers",
    is_transfer := true, account_reference := none }

/-- C3: processing the two-row pool in date order journals A through
reference resolution as DEBIT credit_card 200 / CREDIT saver 200, leaves B
without a counterparty match so that it falls back to the generic bucket as
DEBIT credit_card 200 / CREDIT transfer 200, and emits exactly those two
records, double-counting nothing. -/
theorem transfer_scenario_records :
    (process_raw_transactions cb_accounts (fun _ => "uuid") 0 [c3_rowA, c3_rowB]).map
      (List.map fun p => p.1.entries) =
    some [[⟨"credit_card", 200, .DEBIT⟩, ⟨"saver", 200, .CREDIT⟩],
          [⟨"credit_card", 200, .DEBIT⟩, ⟨"transfer", 200, .CREDIT⟩]] := by
  decide

/-- Unified record of the C7 counterexample: a two-entry inter-account
transfer journaled through reference resolution, with a second real-account
leg (saver) besides the primary credit_card leg and no transfer-bucket entry. -/
def c7_tx : Unified :=
  { id := "t1", date := Sum.inl 0, description := "TRANSFER TO xx5784",
    category := "transfers",
    entries := [⟨"credit_card", "Credit Card", 200, .DEBIT⟩,
                ⟨"saver", "Savings Account", 200, .CREDIT⟩],
    balances := [] }

/-- C7 counterexample: the exported transaction of a record with a second
real-account leg carries no transferAccount, because the exporter only adds
the link when some entry touches the synthetic transfer bucket; the primary
leg is credit_card and the real counterparty leg saver is present. -/
theorem prepare_transferAccount_counterexample :
    (prepare_transaction_for_up_bank cb_accounts c7_tx).map (fun u => u.transferAccount) =
      some none ∧
    (c7_tx.entries.find? fun e => decide (e.account ∈ real_account_keys)).map
        (fun e => e.account) = some "credit_card" ∧
    (c7_tx.entries.filter fun e =>
        decide (e.account ∈ real_account_keys) && e.account != "credit_card") ≠ [] := by
  refine ⟨?_, by decide, by decide⟩
  decide

/-- C7 amended: an exported transaction carries a transferAccount exactly
when the source record has an entry on the synthetic transfer bucket and a
real-account entry other than the primary leg's account, and then the linked
id is the registered external id of the first such entry's account. -/
theorem prepare_transferAccount_rule (cc de ef oc sa : String) (tx : Unified)
    (src : UEntry)
    (hsrc : tx.entries.find? (fun e => decide (e.account ∈ real_account_keys)) = some src)
    (info : AccountInfo)
    (hinfo : (commbank_accounts cc de ef oc sa).lookup src.account = some info) :
    ((prepare_transaction_for_up_bank (commbank_accounts cc de ef oc sa) tx).map
        fun u => u.transferAccount) =
      some (if tx.entries.any (fun e => e.account == "transfer") then
          match (tx.entries.filter fun e =>
              decide (e.account ∈ real_account_keys) && e.account != src.account).head? with
          | some e2 =>
            some (((commbank_accounts cc de ef oc sa).lookup e2.account).bind AccountInfo.id)
          | none => none
        else none) := by
  simp only [prepare_transaction_for_up_bank, hsrc, hinfo]
  rfl

/-- Unified record of the C7 witness: the primary leg, a transfer-bucket
entry, and a further real-account leg, so the linking branch fires. -/
def c7_w_tx : Unified :=
  { id := "t2", date := Sum.inl 0, description := "PAYMENT", category := "transfers",
    entries := [⟨"credit_card", "Credit Card", 200, .DEBIT⟩,
                ⟨"transfer", "Internal Transfers", 200, .CREDIT⟩,
                ⟨"saver", "Savings Account", 200, .CREDIT⟩],
    balances := [] }

/-- Witness for C7 at a concrete input: the amended rule applied to a record
whose entries contain the transfer bucket and the real saver leg. -/
theorem prepare_transferAccount_rule_witness :
    ((prepare_transaction_for_up_bank cb_accounts c7_w_tx).map
        fun u => u.transferAccount) =
      some (if c7_w_tx.entries.any (fun e => e.account == "transfer") then
          match (c7_w_tx.entries.filter fun e =>
              decide (e.account ∈ real_account_keys) &&
                e.account != (⟨"credit_card", "Credit Card", 200, .DEBIT⟩ : UEntry).account).head? with
          | some e2 => some ((cb_accounts.lookup e2.account).bind AccountInfo.id)
          | none => none
        else none) :=
  prepare_transferAccount_rule "id-cc" "id-debit" "id-ef" "id-occ" "id-saver" c7_w_tx
    ⟨"credit_card", "Credit Card", 200, .DEBIT⟩ (by decide)
    ⟨"Credit Card", .LIABILITY, some "id-cc", some "TRANSACTIONAL"⟩ (by decide)

/-- Normalized raw transaction of the C4 scenario row after loading. -/
def c4_t : RawTx :=
  { account := "credit_card", date := Sum.inl 738946, amount := -45,
    description := "WOOLWORTHS", category := "groceries",
    is_transfer := false, account_reference := none }

/-- The C4 pipeline on the single scenario row: loader, journal builder, and
balance replay; the emitted records are paired with the final balances. -/
def c4_pipeline : Option (List Journal × Balances) :=
  (load_row commbank_categories "credit_card" "01/03/2024" "-45.00" "WOOLWORTHS").bind fun t =>
    (processed_transactions cb_accounts (fun _ => "uuid") 0 [t]).map fun js =>
      (js, (update_account_balances cb_accounts 0 js).1)

/-- Journal record emitted for the C4 scenario row. -/
def c4_journal : Journal :=
  { id := "uuid", date := Sum.inl 738946, description := "WOOLWORTHS",
    category := "groceries",
    entries := [⟨"expense", 45, .DEBIT⟩, ⟨"credit_card", 45, .CREDIT⟩] }

theorem c4_load_eq :
    load_row commbank_categories "credit_card" "01/03/2024" "-45.00" "WOOLWORTHS" =
      some c4_t := by
  have hp : parse_float_parts (strip_char '"' (paren_negate (strip_commas "-45.00".toList))) =
      some ⟨true, 4500, 2, 0⟩ := by decide
  have hamt : parse_amount "-45.00" = -45 := by
    simp only [parse_amount, py_float_chars, hp, Option.map_some]
    norm_num [decimal_val]
  simp only [load_row, hamt]
  rw [if_pos (by norm_num : (-45 : ℚ) ≠ 0)]
  decide

theorem c4_records_eq :
    processed_transactions cb_accounts (fun _ => "uuid") 0 [c4_t] = some [c4_journal] := by
  decide

/-- C4 counterexample: after balance replay of the scenario row the stored
running balance of credit_card is +45.00 (the liability balance grows
positive under the code's sign convention), not the claimed -45.00. -/
theorem end_to_end_balance_counterexample :
    (c4_pipeline.map fun r => get_bal r.2 "credit_card") = some 45 ∧
    ¬ (c4_pipeline.map fun r => get_bal r.2 "credit_card") = some (-45) := by
  have hpos : (c4_pipeline.map fun r => get_bal r.2 "credit_card") = some 45 := by
    simp only [c4_pipeline, c4_load_eq, Option.bind_some, c4_records_eq, Option.map_some]
    refine congrArg some ?_
    show (0 : ℚ) + 45 = 45
    norm_num
  refine ⟨hpos, fun hneg => ?_⟩
  rw [hpos] at hneg
  have h45 : (45 : ℚ) = -45 := Option.some_injective ℚ hneg
  norm_num at h45

/-- C4 amended: the scenario row yields exactly one JournalRecord with
entries DEBIT expense 45.00 and CREDIT credit_card 45.00 and category
groceries, and after balance replay the running balances are
credit_card = +45.00 and expense = 45.00. -/
theorem end_to_end_scenario :
    (c4_pipeline.map fun r => r.1.map fun j => (j.entries, j.category)) =
      some [([⟨"expense", 45, .DEBIT⟩, ⟨"credit_card", 45, .CREDIT⟩], "groceries")] ∧
    (c4_pipeline.map fun r => (get_bal r.2 "credit_card", get_bal r.2 "expense")) =
      some (45, 45) := by
  constructor
  · simp only [c4_pipeline, c4_load_eq, Option.bind_some, c4_records_eq, Option.map_some]
    decide
  · simp only [c4_pipeline, c4_load_eq, Option.bind_some, c4_records_eq, Option.map_some]
    refine congrArg some ?_
    refine Prod.ext ?_ ?_
    · show (0 : ℚ) + 45 = 45
      norm_num
    · show (0 : ℚ) + 45 = 45
      norm_num

theorem set_flag_map_fst (pool : Pool) (i : ℕ) :
    (set_flag pool i).map Prod.fst = pool.map Prod.fst := by
  induction pool generalizing i with
  | nil => rfl
  | cons p rest ih =>
    obtain ⟨t, b⟩ := p
    cases i with
    | zero => rfl
    | succ n => simp [set_flag, ih]

theorem handle_transfer_credit_shape (accounts : Accounts) (pool : Pool) (t : RawTx)
    (e : Entry) (m : Option ℕ)
    (h : handle_transfer_credit accounts pool t = some (e, m)) :
    ∃ a, e = ⟨a, t.amount, .CREDIT⟩ := by
  unfold handle_transfer_credit transfer_credit_fallback at h
  repeat' split at h
  any_goals exact Option.noConfusion h
  all_goals
    injection h with h1
    injection h1 with he hm
    exact ⟨_, he.symm⟩

theorem handle_transfer_debit_shape (t : RawTx) :
    ∃ a, handle_transfer_debit t = ⟨a, |t.amount|, .DEBIT⟩ := by
  unfold handle_transfer_debit
  repeat' split
  all_goals exact ⟨_, rfl⟩

theorem create_body_eq (accounts : Accounts) (pool : Pool) (t : RawTx)
    (info : AccountInfo) (hreg : accounts.lookup t.account = some info) :
    create_body accounts pool t =
      if info.type = .LIABILITY then process_liability_transaction accounts pool t
      else if info.type = .ASSET then process_asset_transaction accounts pool t
      else some ([], none) := by
  unfold create_body
  rw [hreg]

theorem create_body_pair_shape (accounts : Accounts) (pool : Pool) (t : RawTx)
    (info : AccountInfo) (hreg : accounts.lookup t.account = some info)
    (hAL : info.type = .ASSET ∨ info.type = .LIABILITY)
    (em : List Entry × Option ℕ) (h : create_body accounts pool t = some em) :
    ∃ a1 a2 q, em.1 = [⟨a1, q, .DEBIT⟩, ⟨a2, q, .CREDIT⟩] := by
  have hasset : ∀ (h2 : process_asset_transaction accounts pool t = some em),
      ∃ a1 a2 q, em.1 = [⟨a1, q, .DEBIT⟩, ⟨a2, q, .CREDIT⟩] := by
    intro h2
    unfold process_asset_transaction at h2
    by_cases hneg : t.amount < 0
    · rw [if_pos hneg] at h2
      by_cases htr : t.is_transfer = true
      · rw [if_pos htr] at h2
        obtain ⟨a, ha⟩ := handle_transfer_debit_shape t
        refine ⟨a, t.account, |t.amount|, ?_⟩
        rw [← Option.some_inj.mp h2, ha]
      · rw [if_neg htr] at h2
        exact ⟨"expense", t.account, |t.amount|, by rw [← Option.some_inj.mp h2]⟩
    · rw [if_neg hneg] at h2
      by_cases htr : t.is_transfer = true
      · rw [if_pos htr] at h2
        rcases hc : handle_transfer_credit accounts pool t with _ | ⟨e, m2⟩
        · rw [hc] at h2; exact Option.noConfusion h2
        · rw [hc] at h2
          obtain ⟨a, ha⟩ := handle_transfer_credit_shape accounts pool t e m2 hc
          simp only [Option.map_some'] at h2
          refine ⟨t.account, a, t.amount, ?_⟩
          rw [← Option.some_inj.mp h2, ha]
      · rw [if_neg htr] at h2
        exact ⟨t.account, "income", t.amount, by rw [← Option.some_inj.mp h2]⟩
  have hliab : ∀ (h2 : process_liability_transaction accounts pool t = some em),
      ∃ a1 a2 q, em.1 = [⟨a1, q, .DEBIT⟩, ⟨a2, q, .CREDIT⟩] := by
    intro h2
    unfold process_liability_transaction at h2
    by_cases hneg : t.amount < 0
    · rw [if_pos hneg] at h2
      exact ⟨"expense", t.account, |t.amount|, by rw [← Option.some_inj.mp h2]⟩
    · rw [if_neg hneg] at h2
      by_cases htr : t.is_transfer = true
      · rw [if_pos htr] at h2
        rcases hc : handle_transfer_credit accounts pool t with _ | ⟨e, m2⟩
        · rw [hc] at h2; exact Option.noConfusion h2
        · rw [hc] at h2
          obtain ⟨a, ha⟩ := handle_transfer_credit_shape accounts pool t e m2 hc
          simp only [Option.map_some'] at h2
          refine ⟨t.account, a, t.amount, ?_⟩
          rw [← Option.some_inj.mp h2, ha]
      · rw [if_neg htr] at h2
        exact ⟨t.account, "transfer", t.amount, by rw [← Option.some_inj.mp h2]⟩
  rw [create_body_eq accounts pool t info hreg] at h
  rcases hAL with hty | hty
  · rw [if_neg (by rw [hty]; exact fun hc => AccountType.noConfusion hc), if_pos hty] at h
    exact hasset h
  · rw [if_pos hty] at h
    exact hliab h

theorem totals_of_pair (a1 a2 : String) (q : ℚ) :
    total_debits [⟨a1, q, .DEBIT⟩, ⟨a2, q, .CREDIT⟩] = q ∧
    total_credits [⟨a1, q, .DEBIT⟩, ⟨a2, q, .CREDIT⟩] = q := by
  constructor <;> simp [total_debits, total_credits, List.filter]

theorem process_go_mem (accounts : Accounts) (ids : ℕ → String) (S : List RawTx)
    (Q : Journal × Bool → Prop)
    (hQ : ∀ (pool : Pool), pool.map Prod.fst = S → ∀ t id r m w, t ∈ S →
        create_processed_transaction accounts pool t id = some (r, m, w) → Q (r, w)) :
    ∀ (order : List ℕ) (pool : Pool) (recs : List (Journal × Bool)) (k : ℕ) res,
      pool.map Prod.fst = S →
      process_go accounts ids order pool recs k = some res →
      (∀ p ∈ recs, Q p) → ∀ p ∈ res.2.1, Q p := by
  intro order
  induction order with
  | nil =>
    intro pool recs k res hS hrun hrecs
    simp only [process_go] at hrun
    rw [← Option.some_inj.mp hrun]
    exact hrecs
  | cons i rest ih =>
    intro pool recs k res hS hrun hrecs
    simp only [process_go] at hrun
    split at hrun
    · exact ih pool recs k res hS hrun hrecs
    · exact ih pool recs k res hS hrun hrecs
    · rename_i t hg
      split at hrun
      · exact Option.noConfusion hrun
      · rename_i r m w hc
        have htS : t ∈ S := by
          rw [← hS]
          exact List.mem_map_of_mem Prod.fst (List.get?_mem hg)
        have hQr : Q (r, w) := hQ pool hS t (ids k) r m w htS hc
        have hS2 : (match m with
            | some j => set_flag (set_flag pool i) j
            | none => set_flag pool i).map Prod.fst = S := by
          rcases m with _ | j
          · rw [set_flag_map_fst, hS]
          · rw [set_flag_map_fst, set_flag_map_fst, hS]
        refine ih _ _ _ res hS2 hrun ?_
        intro p hp
        rcases List.mem_append.mp hp with hold | hnew
        · exact hrecs p hold
        · rw [List.mem_singleton.mp hnew]
          exact hQr

/-- Raw transaction of the C5 counterexample, owned by the registered
EXPENSE-typed account. -/
def c5_t : RawTx := ⟨"expense", Sum.inl 0, -10, "ADJUSTMENT", "uncategorized", false, none⟩

/-- C5 counterexample: a pool record owned by the registered account expense
(type EXPENSE) is journaled with an empty entry list, not with exactly two
entries, because the builder only assembles entries for LIABILITY and ASSET
owners. -/
theorem journal_two_entries_counterexample :
    (processed_transactions cb_accounts (fun _ => "uuid") 0 [c5_t]).map
      (List.map fun j => j.entries.length) = some [0] ∧ (0 : ℕ) ≠ 2 :=
  ⟨by decide, by decide⟩

/-- C5 amended: every JournalRecord emitted for a pool whose owning accounts
are registered with type ASSET or LIABILITY contains exactly two entries, and
its DEBIT total equals its CREDIT total within 0.01. -/
theorem journal_records_two_balanced (accounts : Accounts) (ids : ℕ → String)
    (now : ℤ) (raw : List RawTx)
    (hAL : ∀ t ∈ raw, ∃ info, accounts.lookup t.account = some info ∧
        (info.type = .ASSET ∨ info.type = .LIABILITY))
    (js : List Journal)
    (hrun : processed_transactions accounts ids now raw = some js) :
    ∀ j ∈ js, j.entries.length = 2 ∧
      |total_debits j.entries - total_credits j.entries| < 1 / 100 := by
  have hQ : ∀ (pool : Pool), pool.map Prod.fst = raw → ∀ t id r m w, t ∈ raw →
      create_processed_transaction accounts pool t id = some (r, m, w) →
      (fun p : Journal × Bool => p.1.entries.length = 2 ∧
        |total_debits p.1.entries - total_credits p.1.entries| < 1 / 100) (r, w) := by
    intro pool hpool t id r m w htS hc
    obtain ⟨info, hreg, hal⟩ := hAL t htS
    unfold create_processed_transaction at hc
    rcases hb : create_body accounts pool t with _ | em
    · rw [hb] at hc; exact Option.noConfusion hc
    · rw [hb] at hc
      simp only [Option.map_some'] at hc
      obtain ⟨a1, a2, q, hshape⟩ := create_body_pair_shape accounts pool t info hreg hal em hb
      have h3 := Option.some_inj.mp hc
      injection h3 with hre hrest
      have hr : r.entries = em.1 := by rw [← hre]
      obtain ⟨hd, hcr⟩ := totals_of_pair a1 a2 q
      constructor
      · rw [hr, hshape]; rfl
      · rw [hr, hshape, hd, hcr]
        norm_num
  obtain ⟨recs, hproc, hjs⟩ := Option.map_eq_some'.mp hrun
  intro j hj
  rw [← hjs] at hj
  obtain ⟨p, hp, hpj⟩ := List.mem_map.mp hj
  have hrun2 := hproc
  unfold process_raw_transactions at hrun2
  obtain ⟨res, hres, hrecs⟩ := Option.map_eq_some'.mp hrun2
  have := process_go_mem accounts ids raw
    (fun p : Journal × Bool => p.1.entries.length = 2 ∧
      |total_debits p.1.entries - total_credits p.1.entries| < 1 / 100) hQ
    (sorted_indices (raw.map fun t => sort_key now t.date))
    (raw.map fun t => (t, false)) [] 0 res
    (by rw [List.map_map]; exact List.map_id raw) hres (by intro p hp; cases hp) p
    (by rw [hrecs]; exact hp)
  rw [← hpj]
  exact this

/-- Raw transaction of the C5 witness: a liability expense row. -/
def c5_w_t : RawTx := ⟨"credit_card", Sum.inl 5, -10, "FEE", "uncategorized", false, none⟩

/-- Witness for C5 at a concrete input: the single record emitted for a
credit-card expense row has two entries and equal totals. -/
theorem journal_records_two_balanced_witness :
    (⟨"uuid", Sum.inl 5, "FEE", "uncategorized",
        [⟨"expense", 10, .DEBIT⟩, ⟨"credit_card", 10, .CREDIT⟩]⟩ : Journal).entries.length = 2 ∧
    |total_debits [⟨"expense", 10, .DEBIT⟩, ⟨"credit_card", 10, .CREDIT⟩] -
      total_credits [⟨"expense", 10, .DEBIT⟩, ⟨"credit_card", 10, .CREDIT⟩]| < 1 / 100 :=
  journal_records_two_balanced cb_accounts (fun _ => "uuid") 0 [c5_w_t]
    (by
      intro t ht
      rw [List.mem_singleton.mp ht]
      exact ⟨⟨"Credit Card", .LIABILITY, some "id-cc", some "TRANSACTIONAL"⟩,
        by decide, Or.inr rfl⟩)
    [⟨"uuid", Sum.inl 5, "FEE", "uncategorized",
      [⟨"expense", 10, .DEBIT⟩, ⟨"credit_card", 10, .CREDIT⟩]⟩]
    (by decide) _ (List.mem_singleton.mpr rfl)

theorem create_diag_eq (accounts : Accounts) (pool : Pool) (t : RawTx) (id : String)
    (r : Journal) (m : Option ℕ) (w : Bool)
    (hc : create_processed_transaction accounts pool t id = some (r, m, w)) :
    w = unbalanced_warning r.entries := by
  unfold create_processed_transaction at hc
  rcases hb : create_body accounts pool t with _ | em
  · rw [hb] at hc; exact Option.noConfusion hc
  · rw [hb] at hc
    simp only [Option.map_some'] at hc
    have h3 := Option.some_inj.mp hc
    injection h3 with hre hrest
    injection hrest with hm hw
    rw [← hre, ← hw]

/-- C8: every record that the builder emits carries a diagnostic flag equal
to the greater-than-0.01 imbalance check of its own entries, and the record
list handed downstream is exactly the emitted records, none rejected and
none altered. -/
theorem unbalanced_records_flow (accounts : Accounts) (ids : ℕ → String) (now : ℤ)
    (raw : List RawTx) (js : List Journal)
    (hrun : processed_transactions accounts ids now raw = some js) :
    ∃ recs, process_raw_transactions accounts ids now raw = some recs ∧
      recs.map Prod.fst = js ∧
      ∀ p ∈ recs, p.2 = unbalanced_warning p.1.entries := by
  obtain ⟨recs, hproc, hjs⟩ := Option.map_eq_some'.mp hrun
  refine ⟨recs, hproc, hjs, ?_⟩
  have hrun2 := hproc
  unfold process_raw_transactions at hrun2
  obtain ⟨res, hres, hrecs⟩ := Option.map_eq_some'.mp hrun2
  intro p hp
  refine process_go_mem accounts ids raw
    (fun p : Journal × Bool => p.2 = unbalanced_warning p.1.entries)
    ?_ (sorted_indices (raw.map fun t => sort_key now t.date))
    (raw.map fun t => (t, false)) [] 0 res
    (by rw [List.map_map]; exact List.map_id raw) hres
    (by intro p hp; cases hp) p (by rw [hrecs]; exact hp)
  intro pool hpool t id r m w htS hc
  exact create_diag_eq accounts pool t id r m w hc

/-- Raw transaction of the C8 witness, a plain credit-card expense row. -/
def c8_w_t : RawTx := ⟨"credit_card", Sum.inl 3, -20, "FEE", "uncategorized", false, none⟩

/-- Witness for C8 at a concrete input: the emitted record flows downstream
with its diagnostic flag equal to the imbalance check of its entries. -/
theorem unbalanced_records_flow_witness :
    ∃ recs, process_raw_transactions cb_accounts (fun _ => "uuid") 0 [c8_w_t] = some recs ∧
      recs.map Prod.fst = [⟨"uuid", Sum.inl 3, "FEE", "uncategorized",
        [⟨"expense", 20, .DEBIT⟩, ⟨"credit_card", 20, .CREDIT⟩]⟩] ∧
      ∀ p ∈ recs, p.2 = unbalanced_warning p.1.entries :=
  unbalanced_records_flow cb_accounts (fun _ => "uuid") 0 [c8_w_t]
    [⟨"uuid", Sum.inl 3, "FEE", "uncategorized",
      [⟨"expense", 20, .DEBIT⟩, ⟨"credit_card", 20, .CREDIT⟩]⟩] (by decide)

/-- Journal record with the generated uuid erased. -/
def strip_id (j : Journal) : Journal := { j with id := "" }

theorem create_date_eq (accounts : Accounts) (pool : Pool) (t : RawTx) (id : String)
    (r : Journal) (m : Option ℕ) (w : Bool)
    (hc : create_processed_transaction accounts pool t id = some (r, m, w)) :
    r.date = t.date := by
  unfold create_processed_transaction at hc
  rcases hb : create_body accounts pool t with _ | em
  · rw [hb] at hc; exact Option.noConfusion hc
  · rw [hb] at hc
    simp only [Option.map_some'] at hc
    have h3 := Option.some_inj.mp hc
    injection h3 with hre hrest
    rw [← hre]

theorem process_go_strip (accounts : Accounts) (ids1 ids2 : ℕ → String) :
    ∀ (order : List ℕ) (pool : Pool) (recs1 recs2 : List (Journal × Bool)) (k1 k2 : ℕ),
      recs1.map (fun p => (strip_id p.1, p.2)) = recs2.map (fun p => (strip_id p.1, p.2)) →
      (process_go accounts ids1 order pool recs1 k1).map
          (fun res => (res.1, res.2.1.map fun p => (strip_id p.1, p.2))) =
        (process_go accounts ids2 order pool recs2 k2).map
          (fun res => (res.1, res.2.1.map fun p => (strip_id p.1, p.2))) := by
  intro order
  induction order with
  | nil =>
    intro pool recs1 recs2 k1 k2 hstrip
    simp only [process_go, Option.map_some']
    rw [hstrip]
  | cons i rest ih =>
    intro pool recs1 recs2 k1 k2 hstrip
    rcases hg : pool.get? i with _ | ⟨t, b⟩
    · simp only [process_go, hg]
      exact ih pool recs1 recs2 k1 k2 hstrip
    · cases b with
      | true =>
        simp only [process_go, hg]
        exact ih pool recs1 recs2 k1 k2 hstrip
      | false =>
        rcases hb : create_body accounts pool t with _ | em
        · have hc1 : create_processed_transaction accounts pool t (ids1 k1) = none := by
            simp [create_processed_transaction, hb]
          have hc2 : create_processed_transaction accounts pool t (ids2 k2) = none := by
            simp [create_processed_transaction, hb]
          simp only [process_go, hg, hc1, hc2]
        · have hc1 : create_processed_transaction accounts pool t (ids1 k1) =
              some ((⟨ids1 k1, t.date, t.description, t.category, em.1⟩ : Journal),
                em.2, unbalanced_warning em.1) := by
            simp [create_processed_transaction, hb]
          have hc2 : create_processed_transaction accounts pool t (ids2 k2) =
              some ((⟨ids2 k2, t.date, t.description, t.category, em.1⟩ : Journal),
                em.2, unbalanced_warning em.1) := by
            simp [create_processed_transaction, hb]
          simp only [process_go, hg, hc1, hc2]
          refine ih _ _ _ _ _ ?_
          rw [List.map_append, List.map_append, hstrip]
          rfl

theorem strip_map_fst {recs1 recs2 : List (Journal × Bool)}
    (h : recs1.map (fun p => (strip_id p.1, p.2)) = recs2.map (fun p => (strip_id p.1, p.2))) :
    (recs1.map Prod.fst).map strip_id = (recs2.map Prod.fst).map strip_id := by
  have h2 := congrArg (List.map Prod.fst) h
  rw [List.map_map, List.map_map] at h2
  rw [List.map_map, List.map_map]
  exact h2

theorem filterMap_get_entries (js1 js2 : List Journal)
    (h : js1.map strip_id = js2.map strip_id) :
    ∀ order : List ℕ,
      (order.filterMap js1.get?).map Journal.entries =
        (order.filterMap js2.get?).map Journal.entries := by
  intro order
  induction order with
  | nil => rfl
  | cons i rest ih =>
    have hge : (js1.get? i).map strip_id = (js2.get? i).map strip_id := by
      rw [← List.get?_map, ← List.get?_map, h]
    rcases hg1 : js1.get? i with _ | j1 <;> rcases hg2 : js2.get? i with _ | j2
    · simp only [List.filterMap_cons, hg1, hg2, ih]
    · rw [hg1, hg2] at hge
      exact Option.noConfusion hge
    · rw [hg1, hg2] at hge
      exact Option.noConfusion hge
    · rw [hg1, hg2] at hge
      simp only [Option.map_some'] at hge
      have hent0 : (strip_id j1).entries = (strip_id j2).entries :=
        congrArg Journal.entries (Option.some_inj.mp hge)
      have hent : j1.entries = j2.entries := hent0
      simp only [List.filterMap_cons, hg1, hg2, List.map_cons, ih, hent]

theorem unify_go_bal_eq (accounts : Accounts) :
    ∀ (l1 l2 : List Journal) (bal : Balances) (acc1 acc2 : List Unified),
      l1.map Journal.entries = l2.map Journal.entries →
      (unify_go accounts bal l1 acc1).1 = (unify_go accounts bal l2 acc2).1 := by
  intro l1
  induction l1 with
  | nil =>
    intro l2 bal acc1 acc2 h
    cases l2 with
    | nil => rfl
    | cons r2 rest2 => exact List.noConfusion h
  | cons r1 rest1 ih =>
    intro l2 bal acc1 acc2 h
    cases l2 with
    | nil => exact List.noConfusion h
    | cons r2 rest2 =>
      injection h with h1 h2
      simp only [unify_go, unify_record]
      rw [h1]
      exact ih rest2 _ _ _ h2

theorem strip_id_date (j : Journal) : (strip_id j).date = j.date := rfl

theorem update_bal_strip (accounts : Accounts) (now1 now2 : ℤ) (js1 js2 : List Journal)
    (h : js1.map strip_id = js2.map strip_id)
    (hd : ∀ j ∈ js1, (j.date).isLeft = true) :
    (update_account_balances accounts now1 js1).1 =
      (update_account_balances accounts now2 js2).1 := by
  have hdates : js1.map Journal.date = js2.map Journal.date := by
    have h2 := congrArg (List.map Journal.date) h
    rw [List.map_map, List.map_map] at h2
    exact h2
  have hd2 : ∀ j ∈ js2, (j.date).isLeft = true := by
    intro j hj
    obtain ⟨n, hn⟩ := List.get?_of_mem hj
    have hst : (js1.get? n).map Journal.date = (js2.get? n).map Journal.date := by
      rw [← List.get?_map, ← List.get?_map, hdates]
    rcases hg1 : js1.get? n with _ | j1
    · rw [hg1, hn] at hst
      exact Option.noConfusion hst
    · rw [hg1, hn] at hst
      simp only [Option.map_some'] at hst
      have := hd j1 (List.get?_mem hg1)
      rw [← Option.some_inj.mp hst]
      exact this
  have hkeys : js1.map (fun r => sort_key now1 r.date) =
      js2.map (fun r => sort_key now2 r.date) := by
    have e1 : js1.map (fun r => sort_key now1 r.date) =
        (js1.map Journal.date).map (sort_key now1) := by
      rw [List.map_map]
      rfl
    have e2 : js2.map (fun r => sort_key now2 r.date) =
        (js2.map Journal.date).map (sort_key now2) := by
      rw [List.map_map]
      rfl
    rw [e1, e2, hdates]
    refine List.map_congr_left ?_
    intro d hdm
    obtain ⟨j, hj, hjd⟩ := List.mem_map.mp hdm
    have := hd2 j hj
    rw [← hjd]
    rcases hdd : j.date with d0 | s0
    · rfl
    · rw [hdd] at this
      exact Bool.noConfusion this
  unfold update_account_balances
  rw [hkeys]
  exact unify_go_bal_eq accounts _ _ _ [] []
    (filterMap_get_entries js1 js2 h (sorted_indices (js2.map fun r => sort_key now2 r.date)))

/-- Raw transaction of the C9 counterexample. -/
def c9_t : RawTx := ⟨"credit_card", Sum.inl 0, -20, "FEE", "uncategorized", false, none⟩

/-- C9 counterexample: two runs of the journal builder on the identical
one-row pool, differing only in the fresh-uuid oracle (as any two real runs
do), produce different JournalRecords: the record ids differ. -/
theorem pipeline_not_idempotent :
    process_raw_transactions cb_accounts (fun _ => "run1-uuid") 0 [c9_t] ≠
      process_raw_transactions cb_accounts (fun _ => "run2-uuid") 0 [c9_t] := by
  intro h
  have ha : (process_raw_transactions cb_accounts (fun _ => "run1-uuid") 0 [c9_t]).map
      (List.map fun p => p.1.id) = some ["run1-uuid"] := by decide
  have hb : (process_raw_transactions cb_accounts (fun _ => "run2-uuid") 0 [c9_t]).map
      (List.map fun p => p.1.id) = some ["run2-uuid"] := by decide
  rw [h] at ha
  rw [ha] at hb
  exact absurd (Option.some_inj.mp hb) (by decide)

theorem process_dates_left (accounts : Accounts) (ids : ℕ → String) (now : ℤ)
    (raw : List RawTx) (hd : ∀ t ∈ raw, (t.date).isLeft = true)
    (recs : List (Journal × Bool))
    (hrun : process_raw_transactions accounts ids now raw = some recs) :
    ∀ p ∈ recs, (p.1.date).isLeft = true := by
  unfold process_raw_transactions at hrun
  obtain ⟨res, hres, hrecs⟩ := Option.map_eq_some'.mp hrun
  intro p hp
  refine process_go_mem accounts ids raw
    (fun p : Journal × Bool => (p.1.date).isLeft = true) ?_
    (sorted_indices (raw.map fun t => sort_key now t.date))
    (raw.map fun t => (t, false)) [] 0 res
    (by rw [List.map_map]; exact List.map_id raw) hres
    (by intro p hp; cases hp) p (by rw [hrecs]; exact hp)
  intro pool hpool t id r m w htS hc
  rw [create_date_eq accounts pool t id r m w hc]
  exact hd t htS

/-- C9 amended: when every pool record has a parseable date, two pipeline
runs with arbitrary uuid and clock oracles emit journal record streams that
are identical once the generated record ids are erased (diagnostic flags
included), and identical final per-account balances after replay. -/
theorem pipeline_deterministic_up_to_ids (accounts : Accounts)
    (ids1 ids2 : ℕ → String) (now1 now2 : ℤ) (raw : List RawTx)
    (hd : ∀ t ∈ raw, (t.date).isLeft = true) :
    (process_raw_transactions accounts ids1 now1 raw).map
        (List.map fun p => (strip_id p.1, p.2)) =
      (process_raw_transactions accounts ids2 now2 raw).map
        (List.map fun p => (strip_id p.1, p.2)) ∧
    (processed_transactions accounts ids1 now1 raw).map
        (fun js => (update_account_balances accounts now1 js).1) =
      (processed_transactions accounts ids2 now2 raw).map
        (fun js => (update_account_balances accounts now2 js).1) := by
  have horder : (raw.map fun t => sort_key now1 t.date) =
      (raw.map fun t => sort_key now2 t.date) := by
    refine List.map_congr_left ?_
    intro t ht
    rcases htd : t.date with d | s
    · rfl
    · have hleft := hd t ht
      rw [htd] at hleft
      exact Bool.noConfusion hleft
  have hstrip1 :
      (process_raw_transactions accounts ids1 now1 raw).map
          (List.map fun p => (strip_id p.1, p.2)) =
        (process_raw_transactions accounts ids2 now2 raw).map
          (List.map fun p => (strip_id p.1, p.2)) := by
    have hgo := process_go_strip accounts ids1 ids2
      (sorted_indices (raw.map fun t => sort_key now1 t.date))
      (raw.map fun t => (t, false)) [] [] 0 0 rfl
    have hgo2 := congrArg
      (Option.map (fun x : Pool × List (Journal × Bool) => x.2)) hgo
    rw [Option.map_map, Option.map_map] at hgo2
    unfold process_raw_transactions
    rw [← horder, Option.map_map, Option.map_map]
    exact hgo2
  refine ⟨hstrip1, ?_⟩
  rcases hp1 : process_raw_transactions accounts ids1 now1 raw with _ | recs1
  · have hnone := hstrip1
    rw [hp1] at hnone
    simp only [Option.map_none'] at hnone
    have h2 : process_raw_transactions accounts ids2 now2 raw = none :=
      Option.map_eq_none'.mp hnone.symm
    simp [processed_transactions, hp1, h2]
  · have hsome := hstrip1
    rw [hp1] at hsome
    rcases hp2 : process_raw_transactions accounts ids2 now2 raw with _ | recs2
    · rw [hp2] at hsome
      simp only [Option.map_some', Option.map_none'] at hsome
      exact Option.noConfusion hsome
    · rw [hp2] at hsome
      simp only [Option.map_some'] at hsome
      have hjs := strip_map_fst (Option.some_inj.mp hsome)
      have hdates1 : ∀ j ∈ recs1.map Prod.fst, (j.date).isLeft = true := by
        intro j hj
        obtain ⟨p, hp, hpj⟩ := List.mem_map.mp hj
        rw [← hpj]
        exact process_dates_left accounts ids1 now1 raw hd recs1 hp1 p hp
      have hupd := update_bal_strip accounts now1 now2
        (recs1.map Prod.fst) (recs2.map Prod.fst) hjs hdates1
      simp only [processed_transactions, hp1, hp2, Option.map_some']
      rw [hupd]

/-- Witness for C9 at a concrete input: a one-row pool with a parseable date,
run under two different uuid and clock oracles. -/
theorem pipeline_deterministic_up_to_ids_witness :
    (process_raw_transactions cb_accounts (fun _ => "run1-uuid") 0 [c9_t]).map
        (List.map fun p => (strip_id p.1, p.2)) =
      (process_raw_transactions cb_accounts (fun _ => "run2-uuid") 7 [c9_t]).map
        (List.map fun p => (strip_id p.1, p.2)) ∧
    (processed_transactions cb_accounts (fun _ => "run1-uuid") 0 [c9_t]).map
        (fun js => (update_account_balances cb_accounts 0 js).1) =
      (processed_transactions cb_accounts (fun _ => "run2-uuid") 7 [c9_t]).map
        (fun js => (update_account_balances cb_accounts 7 js).1) :=
  pipeline_deterministic_up_to_ids cb_accounts (fun _ => "run1-uuid") (fun _ => "run2-uuid")
    0 7 [c9_t] (by decide)
